import Mathlib

/-!
Verification development for the Squarespace-export conversion pipeline.

The Python sources are shallowly embedded below:
* `merge_attachments_corrected.py` — filename derivation (`get_filename`),
  text normalization (`simplify_text`), the match-quality scorer
  (`check_match_quality`) and the corrected attachment reconciler
  (`merge_attachments_corrected`).
* `merge_attachments.py` — the earlier reconciler
  (`merge_attachments_to_posts`).
* `create_formatted_csv.py` — the formatted-pipeline extractor and its
  reconciler (`merge_with_attachments`).
* `xml_to_csv_converter.py` — the plain-pipeline extractor.
* `scrape_images_v2.py` — the live image resolver's selection logic
  (`get_header_image`), with the already-fetched page abstracted as a
  `Page` value standing for the parsed soup.

Python strings are modelled as `String`; helper predicates over strings
are written via `List Char` to keep kernel evaluation simple.  Pieces of
the Python standard library that the sources call (`urllib.parse.urlparse`,
`urllib.parse.urljoin`) are modelled after CPython's `urllib/parse.py`.
-/

namespace SqExport

/-- Python `a in b` on strings (substring containment). -/
def inStr (a b : String) : Bool := decide (a.toList <:+: b.toList)

/-- Python `s.startswith(pre)`. -/
def startsWithStr (s pre : String) : Bool := pre.toList.isPrefixOf s.toList

/-- Python `s.lower()` (character-wise lowercasing). -/
def pyLower (s : String) : String := String.mk (s.toList.map Char.toLower)

/-- Python `s.strip()`: drop leading and trailing whitespace. -/
def pyStrip (s : String) : String :=
  String.mk
    (((s.toList.dropWhile Char.isWhitespace).reverse.dropWhile
      Char.isWhitespace).reverse)

/-! ### CPython `urllib.parse` fragments used by `get_filename` and `urljoin` -/

/-- Characters allowed after the first character of a URL scheme
(CPython `scheme_chars`). -/
def isSchemeChar (c : Char) : Bool :=
  ('a' ≤ c && c ≤ 'z') || ('A' ≤ c && c ≤ 'Z') || ('0' ≤ c && c ≤ '9') ||
  c == '+' || c == '-' || c == '.'

/-- ASCII alphabetic test (CPython `url[0].isascii() and url[0].isalpha()`). -/
def isAsciiAlpha (c : Char) : Bool :=
  ('a' ≤ c && c ≤ 'z') || ('A' ≤ c && c ≤ 'Z')

/-- Split a character list at the first occurrence of `c`:
returns the part before it and, when `c` occurs, the part after it. -/
def splitOnce (c : Char) : List Char → List Char × Option (List Char)
  | [] => ([], none)
  | x :: xs =>
    if x = c then ([], some xs)
    else
      let r := splitOnce c xs
      (x :: r.1, r.2)

/-- Split at the last occurrence of `c` (parts before and after it). -/
def splitLast (c : Char) (l : List Char) : Option (List Char × List Char) :=
  match splitOnce c l.reverse with
  | (_, none) => none
  | (after, some before) => some (before.reverse, after.reverse)

/-- CPython `urlsplit` scheme recognition: peel a `scheme:` prefix when the
text before the first colon is a wellformed scheme, lowercasing it. -/
def schemeSplit (l : List Char) : List Char × List Char :=
  match splitOnce ':' l with
  | (before, some after) =>
    match before with
    | [] => ([], l)
    | c :: cs =>
      if isAsciiAlpha c && cs.all isSchemeChar then
        ((c :: cs).map Char.toLower, after)
      else ([], l)
  | (_, none) => ([], l)

/-- CPython `_splitnetloc`: after a leading `//`, the netloc extends to the
first `/`, `?` or `#`. -/
def netlocSplit : List Char → List Char × List Char
  | '/' :: '/' :: rest =>
    (rest.takeWhile (fun c => !(c == '/' || c == '?' || c == '#')),
     rest.dropWhile (fun c => !(c == '/' || c == '?' || c == '#')))
  | l => ([], l)

/-- Schemes for which CPython splits `;params` off the path (`uses_params`). -/
def usesParams : List (List Char) :=
  ["", "ftp", "hdl", "prospero", "http", "imap", "https", "shttp", "rtsp",
   "rtspu", "sip", "sips", "mms", "sftp", "tel"].map String.toList

/-- Schemes for which a relative URL may be joined against a base
(CPython `uses_relative`). -/
def usesRelative : List (List Char) :=
  ["", "ftp", "http", "gopher", "nntp", "imap", "wais", "file", "https",
   "shttp", "mms", "prospero", "rtsp", "rtspu", "sftp", "svn", "svn+ssh",
   "ws", "wss"].map String.toList

/-- Schemes carrying a network location (CPython `uses_netloc`). -/
def usesNetloc : List (List Char) :=
  ["", "ftp", "http", "gopher", "nntp", "telnet", "imap", "wais", "file",
   "mms", "https", "shttp", "snews", "prospero", "rtsp", "rtspu", "rsync",
   "svn", "svn+ssh", "sftp", "nfs", "git", "git+ssh", "ws", "wss"].map
   String.toList

/-- CPython `_splitparams`: split `;params` from the last path segment. -/
def splitParams (p : List Char) : List Char × List Char :=
  if '/' ∈ p then
    match splitLast '/' p with
    | some (before, after) =>
      match splitOnce ';' after with
      | (a, some ps) => (before ++ '/' :: a, ps)
      | (_, none) => (p, [])
    | none => (p, [])
  else
    match splitOnce ';' p with
    | (a, some ps) => (a, ps)
    | (_, none) => (p, [])

/-- Result of CPython `urlparse`. -/
structure ParseResult where
  scheme : List Char
  netloc : List Char
  path : List Char
  params : List Char
  query : List Char
  fragment : List Char
deriving DecidableEq

/-- CPython `urlparse(url, defaultScheme)`: unsafe bytes removed, scheme,
netloc, fragment, query and params peeled off in that order. -/
def urlparseFull (defaultScheme : List Char) (url : List Char) : ParseResult :=
  let l := url.filter (fun c => !(c == '\t' || c == '\r' || c == '\n'))
  let s := schemeSplit l
  let scheme := if s.1 = [] then defaultScheme else s.1
  let n := netlocSplit s.2
  let f := splitOnce '#' n.2
  let fragment := f.2.getD []
  let q := splitOnce '?' f.1
  let query := q.2.getD []
  let pp :=
    if scheme ∈ usesParams && ';' ∈ q.1 then splitParams q.1 else (q.1, [])
  ⟨scheme, n.1, pp.1, pp.2, query, fragment⟩

/-- CPython `urlunsplit`. -/
def urlunsplit (scheme netloc url query fragment : List Char) : List Char :=
  let url :=
    if netloc ≠ [] ∨ (url ≠ [] ∧ url.take 2 = ['/', '/']) then
      let url := if url ≠ [] ∧ url.head? ≠ some '/' then '/' :: url else url
      '/' :: '/' :: netloc ++ url
    else url
  let url := if scheme ≠ [] then scheme ++ ':' :: url else url
  let url := if query ≠ [] then url ++ '?' :: query else url
  if fragment ≠ [] then url ++ '#' :: fragment else url

/-- CPython `urlunparse`. -/
def urlunparse (r : ParseResult) : List Char :=
  let u := if r.params ≠ [] then r.path ++ ';' :: r.params else r.path
  urlunsplit r.scheme r.netloc u r.query r.fragment

/-- CPython `urljoin` segment resolution loop over `.` and `..`. -/
def resolveSegsAux : List (List Char) → List (List Char) → List (List Char)
  | acc, [] => acc.reverse
  | acc, seg :: rest =>
    if seg = ['.', '.'] then resolveSegsAux acc.tail rest
    else if seg = ['.'] then resolveSegsAux acc rest
    else resolveSegsAux (seg :: acc) rest

/-- CPython `urljoin` path resolution: fold the segments, then append an
empty segment when the last input segment was `.` or `..`. -/
def resolveSegs (segs : List (List Char)) : List (List Char) :=
  let resolved := resolveSegsAux [] segs
  if segs.getLastD [] = ['.'] ∨ segs.getLastD [] = ['.', '.'] then
    resolved ++ [[]]
  else resolved

/-- Split a path on `/` (Python `path.split('/')`). -/
def splitSlash : List Char → List (List Char)
  | [] => [[]]
  | c :: rest =>
    if c = '/' then [] :: splitSlash rest
    else
      match splitSlash rest with
      | [] => [[c]]
      | a :: more => (c :: a) :: more

/-- Python `'/'.join(segs)`. -/
def joinSlash : List (List Char) → List Char
  | [] => []
  | [a] => a
  | a :: rest => a ++ '/' :: joinSlash rest

/-- CPython `segments[1:-1] = filter(None, segments[1:-1])`: drop empty
segments strictly between the first and the last. -/
def filterMiddle (l : List (List Char)) : List (List Char) :=
  match l with
  | [] => []
  | [a] => [a]
  | a :: rest =>
    a :: (rest.dropLast.filter (fun s => s ≠ [])) ++ [rest.getLastD []]

/-- CPython `urljoin(base, url)`. -/
def urljoin (base url : String) : String :=
  if base = "" then url
  else if url = "" then base
  else
    let b := urlparseFull [] base.toList
    let u := urlparseFull b.scheme url.toList
    if u.scheme ≠ b.scheme ∨ u.scheme ∉ usesRelative then url
    else if u.scheme ∈ usesNetloc ∧ u.netloc ≠ [] then
      String.mk (urlunparse u)
    else
      let netloc := if u.scheme ∈ usesNetloc then b.netloc else u.netloc
      if u.path = [] ∧ u.params = [] then
        let query := if u.query = [] then b.query else u.query
        String.mk (urlunparse ⟨u.scheme, netloc, b.path, b.params, query,
          u.fragment⟩)
      else
        let baseParts0 := splitSlash b.path
        let baseParts :=
          if baseParts0.getLastD [] ≠ [] then baseParts0.dropLast
          else baseParts0
        let segments :=
          if u.path.take 1 = ['/'] then splitSlash u.path
          else filterMiddle (baseParts ++ splitSlash u.path)
        let rp := joinSlash (resolveSegs segments)
        let rp := if rp = [] then ['/'] else rp
        String.mk (urlunparse ⟨u.scheme, netloc, rp, u.params, u.query,
          u.fragment⟩)

/-! ### `merge_attachments_corrected.py`: filename derivation and scorer -/

/-- Image extensions recognised by `get_filename`'s trailing regex, in the
alternation order of the Python pattern. -/
def imageExts : List (List Char) :=
  ["jpg", "jpeg", "png", "gif", "webp"].map String.toList

/-- Delete everything from the leftmost `.<image-ext>` on
(Python `re.sub(r'\.(jpg|jpeg|png|gif|webp).*$', '', s)`). -/
def stripImageExt : List Char → List Char
  | [] => []
  | c :: cs =>
    if c = '.' ∧ imageExts.any (fun e => e.isPrefixOf cs) then []
    else c :: stripImageExt cs

/-- `get_filename` from `merge_attachments_corrected.py`: empty for an empty
URL, otherwise the last `/`-segment of `urlparse(url).path`, lowercased,
with a trailing image extension and anything after it removed. -/
def get_filename (url : String) : String :=
  if url = "" then ""
  else
    let path := (urlparseFull [] url.toList).path
    let filename := String.mk ((splitSlash path).getLastD [])
    String.mk (stripImageExt (pyLower filename).toList)

/-- Characters kept by `simplify_text` (lowercase letters and digits). -/
def isAlnumLower (c : Char) : Bool :=
  ('a' ≤ c && c ≤ 'z') || ('0' ≤ c && c ≤ '9')

/-- `simplify_text`: lowercase, then drop every character outside
`[a-z0-9]` (Python `re.sub(r'[^a-z0-9]', '', text.lower())`). -/
def simplify_text (text : String) : String :=
  String.mk ((pyLower text).toList.filter isAlnumLower)

/-- The generic/stock basename list of `check_match_quality`, in source
order. -/
def generic_names : List String :=
  ["blog_black", "blog_white", "blog_red", "blog_blue", "blog_green",
   "blog", "image", "img", "unsplash", "photo", "untitled",
   "attachment", "screen", "title+slide", "title"]

/-- The generic-image loop of `check_match_quality`: first listed basename
that the lowercased filename equals or extends with an underscore. -/
def findGeneric (filenameLower : String) : Option String :=
  generic_names.find? (fun g =>
    filenameLower == g || startsWithStr filenameLower (g ++ "_"))

/-- Maximal runs of `[a-z0-9]` characters, accumulator-style. -/
def alnumRunsAux : List Char → List Char → List (List Char)
  | [], acc => if acc = [] then [] else [acc.reverse]
  | c :: cs, acc =>
    if isAlnumLower c then alnumRunsAux cs (c :: acc)
    else if acc = [] then alnumRunsAux cs []
    else acc.reverse :: alnumRunsAux cs []

/-- Python `re.findall(r'[a-z0-9]{3,}', s)`: maximal `[a-z0-9]` runs of
length at least 3. -/
def findWords (s : String) : List String :=
  ((alnumRunsAux s.toList []).filter (fun r => 3 ≤ r.length)).map String.mk

/-- The pair count of `check_match_quality`:
`sum(1 for fw in filename_words for tw in title_words if fw in tw or tw in fw)`. -/
def matchCount (filenameWords titleWords : List String) : Nat :=
  (filenameWords.map (fun fw =>
    (titleWords.filter (fun tw => inStr fw tw || inStr tw fw)).length)).foldl
    (· + ·) 0

/-- `check_match_quality` from `merge_attachments_corrected.py`:
returns `(match_score, needs_review, reason)`. -/
def check_match_quality (title filename : String) : Nat × Bool × String :=
  if filename = "" then (0, true, "No image")
  else
    match findGeneric (pyLower filename) with
    | some g => (1, true, "Generic image (" ++ g ++ ")")
    | none =>
      let simple_title := simplify_text title
      let simple_filename := simplify_text filename
      if inStr simple_filename simple_title ||
         inStr simple_title simple_filename then
        (10, false, "Good match")
      else if 5 ≤ simple_filename.length then
        let title_words := findWords simple_title
        let filename_words := findWords simple_filename
        let nMatches := matchCount filename_words title_words
        if 2 ≤ nMatches then (8, false, "Partial match")
        else if 1 ≤ nMatches then (5, true, "Weak match - verify")
        else (2, true, "No match - likely stock photo")
      else (2, true, "No match - likely stock photo")

/-! ### Reconcilers -/

/-- One CSV row of the cleaned export (the input schema of both
reconcilers). -/
structure Row where
  post_id : String
  title : String
  post_type : String
  post_date : String
  category : String
  link : String
  excerpt : String
  content : String
  attachment_url : String
deriving DecidableEq

/-- Python `row['post_type'] in ['post', 'page']`. -/
def isContentType (t : String) : Bool := t == "post" || t == "page"

/-- Output schema of `merge_attachments_corrected` (the annotated merged
record). -/
structure Merged where
  post_id : String
  title : String
  post_type : String
  post_date : String
  category : String
  link : String
  excerpt : String
  content : String
  attachment_url : String
  attachment_id : String
  attachment_filename : String
  needs_review : String
  review_reason : String
deriving DecidableEq

/-- The merged record built by `merge_attachments_corrected` when the next
row is an attachment: copies the content row's fields, the attachment's
url and id, the derived filename, and the scorer's verdict. -/
def pairRecord (row next : Row) : Merged :=
  let attachment_url := next.attachment_url
  let filename := get_filename attachment_url
  let q := check_match_quality row.title filename
  { post_id := row.post_id, title := row.title, post_type := row.post_type,
    post_date := row.post_date, category := row.category, link := row.link,
    excerpt := row.excerpt, content := row.content,
    attachment_url := attachment_url, attachment_id := next.post_id,
    attachment_filename := filename,
    needs_review := if q.2.1 then "YES" else "NO",
    review_reason := q.2.2 }

/-- The merged record `merge_attachments_corrected` builds for a content
row with no following attachment. -/
def unpairedRecord (row : Row) : Merged :=
  { post_id := row.post_id, title := row.title, post_type := row.post_type,
    post_date := row.post_date, category := row.category, link := row.link,
    excerpt := row.excerpt, content := row.content,
    attachment_url := "", attachment_id := "", attachment_filename := "",
    needs_review := "YES", review_reason := "No image" }

/-- The cursor loop of `merge_attachments_corrected`: a content row pairs
with an immediately following attachment row (cursor advances by 2),
otherwise it is emitted unpaired (cursor advances by 1); any other row is
skipped. -/
def merge_attachments_corrected : List Row → List Merged
  | [] => []
  | row :: rest =>
    if isContentType row.post_type then
      match rest with
      | next :: rest2 =>
        if next.post_type == "attachment" then
          pairRecord row next :: merge_attachments_corrected rest2
        else
          unpairedRecord row :: merge_attachments_corrected (next :: rest2)
      | [] => [unpairedRecord row]
    else merge_attachments_corrected rest

/-- Output schema of the earlier `merge_attachments_to_posts` (no scorer
columns). -/
structure MergedOld where
  post_id : String
  title : String
  post_type : String
  post_date : String
  category : String
  link : String
  excerpt : String
  content : String
  attachment_url : String
  attachment_id : String
deriving DecidableEq

/-- Merged record of `merge_attachments.py`: content fields from the row
after the attachment, url/id from the attachment row itself. -/
def pairOld (post att : Row) : MergedOld :=
  { post_id := post.post_id, title := post.title,
    post_type := post.post_type, post_date := post.post_date,
    category := post.category, link := post.link, excerpt := post.excerpt,
    content := post.content, attachment_url := att.attachment_url,
    attachment_id := att.post_id }

/-- Unpaired record of `merge_attachments.py`. -/
def unpairedOld (post : Row) : MergedOld :=
  { post_id := post.post_id, title := post.title,
    post_type := post.post_type, post_date := post.post_date,
    category := post.category, link := post.link, excerpt := post.excerpt,
    content := post.content, attachment_url := "", attachment_id := "" }

/-- The cursor loop of `merge_attachments_to_posts` (`merge_attachments.py`):
an attachment row followed by a content row pairs with it (cursor advances
by 2); a content row otherwise is emitted unpaired; anything else is
skipped. -/
def merge_attachments_to_posts : List Row → List MergedOld
  | [] => []
  | row :: rest =>
    match rest with
    | next :: rest2 =>
      if row.post_type == "attachment" && isContentType next.post_type then
        pairOld next row :: merge_attachments_to_posts rest2
      else if isContentType row.post_type then
        unpairedOld row :: merge_attachments_to_posts (next :: rest2)
      else merge_attachments_to_posts (next :: rest2)
    | [] =>
      if isContentType row.post_type then [unpairedOld row] else []

/-- Output row of `merge_with_attachments` (`create_formatted_csv.py`):
the input row with its attachment url overwritten and an attachment id
added. -/
structure RowWithId where
  post_id : String
  title : String
  post_type : String
  post_date : String
  category : String
  link : String
  excerpt : String
  content : String
  attachment_url : String
  attachment_id : String
deriving DecidableEq

/-- `merge_with_attachments` setting a row's attachment url and id. -/
def withAtt (post : Row) (u id : String) : RowWithId :=
  { post_id := post.post_id, title := post.title,
    post_type := post.post_type, post_date := post.post_date,
    category := post.category, link := post.link, excerpt := post.excerpt,
    content := post.content, attachment_url := u, attachment_id := id }

/-- The cursor loop of `merge_with_attachments` (`create_formatted_csv.py`):
same pairing direction as the corrected reconciler, without scoring. -/
def merge_with_attachments : List Row → List RowWithId
  | [] => []
  | post :: rest =>
    if isContentType post.post_type then
      match rest with
      | att :: rest2 =>
        if att.post_type == "attachment" then
          withAtt post att.attachment_url att.post_id ::
            merge_with_attachments rest2
        else
          withAtt post "" "" :: merge_with_attachments (att :: rest2)
      | [] => [withAtt post "" ""]
    else merge_with_attachments rest

/-- The eight content fields a merged record copies from its content row. -/
def contentPart (r : Row) : List String :=
  [r.post_id, r.title, r.post_type, r.post_date, r.category, r.link,
   r.excerpt, r.content]

/-- The same eight fields of an annotated merged record. -/
def mergedPart (m : Merged) : List String :=
  [m.post_id, m.title, m.post_type, m.post_date, m.category, m.link,
   m.excerpt, m.content]

/-- The same eight fields of a `merge_with_attachments` output row. -/
def rowWithIdPart (m : RowWithId) : List String :=
  [m.post_id, m.title, m.post_type, m.post_date, m.category, m.link,
   m.excerpt, m.content]

/-! ### Record extractors

One export item is modelled as the outcome of the per-field regex
searches the two parsers run over the item text (`None` when the pattern
did not match, the captured group otherwise); the exact regular
expressions are an external format detail.  The HTML sanitizer the
parsers delegate to (`clean_html` respectively
`clean_html_preserve_formatting`, both built on BeautifulSoup) is passed
in as an abstract function. -/

/-- Per-field match results for one `<item>` of the export. -/
structure Item where
  title : Option String
  link : Option String
  post_name : Option String
  post_id : Option String
  post_type : Option String
  post_date : Option String
  pub_date : Option String
  category : Option String
  excerpt : Option String
  content : Option String
  att_url : Option String
deriving DecidableEq

/-- The link-fallback of `xml_to_csv_converter.parse_xml_file`: explicit
link if matched; else the stripped post-name unchanged when
slash-prefixed, `/`-prefixed when it starts with `blogfeed/` or `2017/`,
and `/blogfeed/`-prefixed otherwise; else empty. -/
def linkConverter (it : Item) : String :=
  match it.link with
  | some l => pyStrip l
  | none =>
    match it.post_name with
    | some pn0 =>
      let pn := pyStrip pn0
      if startsWithStr pn "/" then pn
      else if startsWithStr pn "blogfeed/" || startsWithStr pn "2017/" then
        "/" ++ pn
      else "/blogfeed/" ++ pn
    | none => ""

/-- The link-fallback of `create_formatted_csv.parse_xml_with_formatting`:
explicit link if matched, else the stripped post-name `/`-prefixed unless
already slash-prefixed, else empty. -/
def linkFormatted (it : Item) : String :=
  match it.link with
  | some l => pyStrip l
  | none =>
    match it.post_name with
    | some pn0 =>
      let pn := pyStrip pn0
      if !startsWithStr pn "/" then "/" ++ pn else pn
    | none => ""

/-- The date fallback shared by both parsers: stripped post-date, else
stripped publication date, else empty. -/
def dateExtract (it : Item) : String :=
  match it.post_date with
  | some d => pyStrip d
  | none =>
    match it.pub_date with
    | some d => pyStrip d
    | none => ""

/-- Field extraction of `xml_to_csv_converter.parse_xml_file` for one item
(`san` abstracts `clean_html`): title and excerpt sanitized, content
sanitized then truncated to 1000 characters with a `...` marker,
attachment url populated only for attachment items. -/
def extractConverter (san : String → String) (it : Item) : Row :=
  let post_type := it.post_type.getD ""
  { post_id := it.post_id.getD "",
    title := match it.title with | some t => san t | none => "",
    post_type := post_type,
    post_date := dateExtract it,
    category := it.category.getD "",
    link := linkConverter it,
    excerpt := match it.excerpt with | some e => san e | none => "",
    content :=
      match it.content with
      | some c =>
        let fc := san c
        if 1000 < fc.length then String.mk (fc.toList.take 1000) ++ "..."
        else fc
      | none => "",
    attachment_url :=
      if post_type = "attachment" then it.att_url.getD "" else "" }

/-- Field extraction of `create_formatted_csv.parse_xml_with_formatting`
for one item (`san` abstracts `clean_html_preserve_formatting`): title
merely stripped, excerpt and content sanitized without truncation. -/
def extractFormatted (san : String → String) (it : Item) : Row :=
  let post_type := it.post_type.getD ""
  { post_id := it.post_id.getD "",
    title := match it.title with | some t => pyStrip t | none => "",
    post_type := post_type,
    post_date := dateExtract it,
    category := it.category.getD "",
    link := linkFormatted it,
    excerpt := match it.excerpt with | some e => san e | none => "",
    content := match it.content with | some c => san c | none => "",
    attachment_url :=
      if post_type = "attachment" then it.att_url.getD "" else "" }

/-- The keep condition both parsers apply before appending a record
(Python `if post.get('post_id') or post.get('title') or post.get('link')`). -/
def keepRow (r : Row) : Bool :=
  r.post_id ≠ "" || r.title ≠ "" || r.link ≠ ""

/-- `parse_xml_file` over a list of items: extract each, keep those
passing the keep condition. -/
def parseConverter (san : String → String) (items : List Item) : List Row :=
  (items.map (extractConverter san)).filter keepRow

/-- `parse_xml_with_formatting` over a list of items. -/
def parseFormatted (san : String → String) (items : List Item) : List Row :=
  (items.map (extractFormatted san)).filter keepRow

/-! ### Live image resolver (`scrape_images_v2.get_header_image`)

The HTTP fetch, the politeness delay and the exception handling around
the extraction are not modelled; a `Page` value stands for the parsed
soup of an already-fetched response: the result of `select_one` for each
CSS selector string, and the `content` attributes of the `og:image` and
`twitter:image` meta tags when those tags are present. -/

/-- An `img` element as the resolver reads it: its `data-src`,
`data-image` and `src` attributes. -/
structure Img where
  dataSrc : Option String
  dataImage : Option String
  src : Option String
deriving DecidableEq

/-- A fetched, parsed page. -/
structure Page where
  selectOne : String → Option Img
  ogImage : Option String
  twitterImage : Option String

/-- The selector list of `scrape_images_v2.get_header_image`, in source
order. -/
def selectors : List String :=
  [".blog-item-top-wrapper img",
   "article .image-block img",
   ".blog-item-wrapper .sqs-block-image img",
   ".BlogItem-image img",
   "figure.blog-item-top-wrapper img",
   ".entry-header img",
   ".sqs-block-image-figure img"]

/-- Python `img.get('data-src') or img.get('data-image') or img.get('src')`:
first attribute that is present and non-empty. -/
def imgUrlOf (img : Img) : Option String :=
  match img.dataSrc with
  | some u => if u ≠ "" then some u else nextA img
  | none => nextA img
where
  /-- Fallback through `data-image` then `src`. -/
  nextA (img : Img) : Option String :=
    match img.dataImage with
    | some u => if u ≠ "" then some u else nextB img
    | none => nextB img
  /-- Fallback to `src`. -/
  nextB (img : Img) : Option String :=
    match img.src with
    | some u => if u ≠ "" then some u else none
    | none => none

/-- URL normalization inside the selector loop: protocol-relative URLs get
`https:` prepended, root-relative URLs are joined against the page URL. -/
def normalizeImgUrl (pageUrl raw : String) : String :=
  if startsWithStr raw "//" then "https:" ++ raw
  else if startsWithStr raw "/" then urljoin pageUrl raw
  else raw

/-- Method 1 of `get_header_image`: walk the selectors in order; a found
image with a usable URL is normalized and returned unless its lowercased
URL contains `logo` or `icon`, in which case the scan continues. -/
def scanSelectors (page : Page) (pageUrl : String) :
    List String → Option String
  | [] => none
  | sel :: rest =>
    match page.selectOne sel with
    | none => scanSelectors page pageUrl rest
    | some img =>
      match imgUrlOf img with
      | none => scanSelectors page pageUrl rest
      | some raw =>
        let iu := normalizeImgUrl pageUrl raw
        if !inStr "logo" (pyLower iu) && !inStr "icon" (pyLower iu) then
          some iu
        else scanSelectors page pageUrl rest

/-- Method 2 of `get_header_image`: the `og:image` then `twitter:image`
meta contents, returned verbatim when non-empty. -/
def metaImage (page : Page) : Option String :=
  match page.ogImage with
  | some c =>
    if c ≠ "" then some c
    else
      match page.twitterImage with
      | some t => if t ≠ "" then some t else none
      | none => none
  | none =>
    match page.twitterImage with
    | some t => if t ≠ "" then some t else none
    | none => none

/-- `get_header_image` of `scrape_images_v2.py` on a fetched page:
selector scan first, meta-tag fallback second. -/
def get_header_image (page : Page) (pageUrl : String) : Option String :=
  match scanSelectors page pageUrl selectors with
  | some u => some u
  | none => metaImage page

/-! ### Sample data used by witnesses and counterexamples -/

/-- A content row. -/
def postA : Row := ⟨"1", "Post A", "post", "", "", "", "", "", ""⟩

/-- An attachment row carrying a media URL. -/
def attX : Row :=
  ⟨"9", "", "attachment", "", "", "", "", "",
   "https://ex.com/img/photo.jpg"⟩

/-- An attachment row with an empty media URL (degenerate). -/
def attEmpty : Row := ⟨"8", "", "attachment", "", "", "", "", "", ""⟩

/-- A second content row. -/
def postB : Row := ⟨"2", "Post B", "page", "", "", "", "", "", ""⟩

/-- An export item with no link match and a bare post-name. -/
def itemNoLink : Item :=
  ⟨none, none, some "hello", some "7", some "post", none, none, none, none,
   none, none⟩

/-- An export item where every pattern failed to match. -/
def itemAllNone : Item :=
  ⟨none, none, none, none, none, none, none, none, none, none, none⟩

/-- A page with no selector hits whose `og:image` points at a logo. -/
def pageLogo : Page := ⟨fun _ => none, some "https://ex.com/logo.png", none⟩

/-- A page whose first selector yields a header image. -/
def pageHeader : Page :=
  ⟨fun sel =>
    if sel = ".blog-item-top-wrapper img" then
      some ⟨some "https://cdn.ex.com/header-a.jpg", none, none⟩
    else none,
   none, none⟩

/-! ### Equation lemmas for the corrected reconciler -/

/-- A non-content row at the cursor is skipped. -/
theorem merge_corrected_skip (row : Row) (rest : List Row)
    (hc : isContentType row.post_type = false) :
    merge_attachments_corrected (row :: rest)
      = merge_attachments_corrected rest := by
  cases rest <;> simp [merge_attachments_corrected, hc]

/-- A trailing content row is emitted unpaired. -/
theorem merge_corrected_single (row : Row)
    (hc : isContentType row.post_type = true) :
    merge_attachments_corrected [row] = [unpairedRecord row] := by
  simp [merge_attachments_corrected, hc]

/-- A content row followed by an attachment is paired; both rows are
consumed. -/
theorem merge_corrected_pair (row next : Row) (rest2 : List Row)
    (hc : isContentType row.post_type = true)
    (ha : next.post_type = "attachment") :
    merge_attachments_corrected (row :: next :: rest2)
      = pairRecord row next :: merge_attachments_corrected rest2 := by
  simp [merge_attachments_corrected, hc, ha]

/-- A content row whose successor is not an attachment is emitted
unpaired; only the content row is consumed. -/
theorem merge_corrected_nopair (row next : Row) (rest2 : List Row)
    (hc : isContentType row.post_type = true)
    (ha : next.post_type ≠ "attachment") :
    merge_attachments_corrected (row :: next :: rest2)
      = unpairedRecord row :: merge_attachments_corrected (next :: rest2) := by
  simp [merge_attachments_corrected, hc, ha]

/-- Conservation for `merge_attachments_corrected`: the content fields of
the output are the content fields of the input's content rows, in order. -/
theorem merge_corrected_conservation (rows : List Row) :
    (merge_attachments_corrected rows).map mergedPart
      = (rows.filter (fun r => isContentType r.post_type)).map contentPart := by
  induction rows using merge_attachments_corrected.induct with
  | case1 => rfl
  | case2 row hc next rest2 ha ih =>
    have ha' : next.post_type = "attachment" := by simpa using ha
    have hcp : row.post_type = "post" ∨ row.post_type = "page" := by
      simpa [isContentType] using hc
    rw [merge_corrected_pair row next rest2 hc ha']
    simp [List.filter_cons, hcp, ha', isContentType, ih, pairRecord,
      mergedPart, contentPart]
  | case3 row hc next rest2 ha ih =>
    have ha' : next.post_type ≠ "attachment" := by simpa using ha
    have hcp : row.post_type = "post" ∨ row.post_type = "page" := by
      simpa [isContentType] using hc
    rw [merge_corrected_nopair row next rest2 hc ha']
    simp [List.filter_cons, hc, hcp, ih, unpairedRecord, mergedPart,
      contentPart]
  | case4 row hc =>
    have hcp : row.post_type = "post" ∨ row.post_type = "page" := by
      simpa [isContentType] using hc
    rw [merge_corrected_single row hc]
    simp [List.filter_cons, hc, hcp, unpairedRecord, mergedPart, contentPart]
  | case5 row rest hc ih =>
    have hc' : isContentType row.post_type = false := by simpa using hc
    have hcp : ¬(row.post_type = "post" ∨ row.post_type = "page") := by
      simpa [isContentType] using hc
    rw [merge_corrected_skip row rest hc']
    simp [List.filter_cons, hcp, isContentType, ih]

/-- Conservation for `merge_with_attachments` of
`create_formatted_csv.py`. -/
theorem merge_with_conservation (rows : List Row) :
    (merge_with_attachments rows).map rowWithIdPart
      = (rows.filter (fun r => isContentType r.post_type)).map contentPart := by
  induction rows using merge_with_attachments.induct with
  | case1 => rfl
  | case2 post hc att rest2 ha ih =>
    have ha' : att.post_type = "attachment" := by simpa using ha
    have hcp : post.post_type = "post" ∨ post.post_type = "page" := by
      simpa [isContentType] using hc
    simp [merge_with_attachments, hc, ha', List.filter_cons, hcp,
      isContentType, ih, withAtt, rowWithIdPart, contentPart]
  | case3 post hc att rest2 ha ih =>
    have hcp : post.post_type = "post" ∨ post.post_type = "page" := by
      simpa [isContentType] using hc
    simp [merge_with_attachments, hc, ha, List.filter_cons, hcp, ih,
      withAtt, rowWithIdPart, contentPart]
  | case4 post hc =>
    have hcp : post.post_type = "post" ∨ post.post_type = "page" := by
      simpa [isContentType] using hc
    simp [merge_with_attachments, hc, List.filter_cons, hcp, withAtt,
      rowWithIdPart, contentPart]
  | case5 post rest hc ih =>
    have hc' : isContentType post.post_type = false := by simpa using hc
    have hcp : ¬(post.post_type = "post" ∨ post.post_type = "page") := by
      simpa [isContentType] using hc
    cases rest <;>
      simp [merge_with_attachments, hc', List.filter_cons, hcp,
        isContentType, ih]

/-! ### Claim theorems -/

/-- C1: Reconciliation conservation — for every input sequence of records,
both the corrected reconciler and the formatted-pipeline reconciler emit
exactly one merged record per content record (type `post` or `page`),
never duplicating or dropping one, and the merged records carry the
content records' fields in the input's relative order. -/
theorem reconciliation_conservation (rows : List Row) :
    (merge_attachments_corrected rows).map mergedPart
      = (rows.filter (fun r => isContentType r.post_type)).map contentPart
    ∧ (merge_attachments_corrected rows).length
      = (rows.filter (fun r => isContentType r.post_type)).length
    ∧ (merge_with_attachments rows).map rowWithIdPart
      = (rows.filter (fun r => isContentType r.post_type)).map contentPart := by
  refine ⟨merge_corrected_conservation rows, ?_, merge_with_conservation rows⟩
  have h := congrArg List.length (merge_corrected_conservation rows)
  simpa using h

/-- C2: Adjacency pairing — when the cursor of the corrected reconciler
sits on a content record: an immediately following attachment is paired
(its url and id copied, cursor advanced by 2 so the media record feeds at
most this one content record); otherwise the content record is emitted
unpaired with empty attachment url and id and the cursor advances by 1. -/
theorem adjacency_pairing (row next : Row) (rest : List Row)
    (hc : isContentType row.post_type = true) :
    (next.post_type = "attachment" →
      merge_attachments_corrected (row :: next :: rest)
        = pairRecord row next :: merge_attachments_corrected rest
      ∧ (pairRecord row next).attachment_url = next.attachment_url
      ∧ (pairRecord row next).attachment_id = next.post_id)
    ∧ (next.post_type ≠ "attachment" →
      merge_attachments_corrected (row :: next :: rest)
        = unpairedRecord row :: merge_attachments_corrected (next :: rest)
      ∧ (unpairedRecord row).attachment_url = ""
      ∧ (unpairedRecord row).attachment_id = "")
    ∧ merge_attachments_corrected [row] = [unpairedRecord row] :=
  ⟨fun ha => ⟨merge_corrected_pair row next rest hc ha, rfl, rfl⟩,
   fun ha => ⟨merge_corrected_nopair row next rest hc ha, rfl, rfl⟩,
   merge_corrected_single row hc⟩

/-- Witness for C2 at `[postA, attX]` and `[postA, postB]`. -/
theorem adjacency_pairing_witness :
    (merge_attachments_corrected [postA, attX]
        = pairRecord postA attX :: merge_attachments_corrected []
      ∧ (pairRecord postA attX).attachment_url = attX.attachment_url
      ∧ (pairRecord postA attX).attachment_id = attX.post_id)
    ∧ (merge_attachments_corrected [postA, postB]
        = unpairedRecord postA :: merge_attachments_corrected [postB]
      ∧ (unpairedRecord postA).attachment_url = ""
      ∧ (unpairedRecord postA).attachment_id = "") :=
  ⟨(adjacency_pairing postA attX [] (by decide)).1 (by decide),
   (adjacency_pairing postA postB [] (by decide)).2.1 (by decide)⟩

/-- C4: The two reconciler variants are not equivalent — on the input
`[attachment X, post A]` the earlier reconciler assigns X's url to post A
while the corrected reconciler leaves post A unpaired. -/
theorem reconcilers_not_equivalent :
    (merge_attachments_to_posts [attX, postA]).map
        (fun m => (m.post_id, m.attachment_url))
      = [("1", "https://ex.com/img/photo.jpg")]
    ∧ (merge_attachments_corrected [attX, postA]).map
        (fun m => (m.post_id, m.attachment_url))
      = [("1", "")]
    ∧ ("https://ex.com/img/photo.jpg" : String) ≠ "" := by decide

/-- C7: No-image outcome — every merged record of the corrected reconciler
whose attachment url is empty (a content record left unpaired, or paired
with a degenerate media record whose url is empty) has needs-review `YES`,
review reason `No image` and an empty attachment filename; and the scorer
on an empty filename returns score 0, needs-review true, `No image`. -/
theorem no_image_outcome :
    (∀ rows : List Row, ∀ m ∈ merge_attachments_corrected rows,
      m.attachment_url = "" →
        m.needs_review = "YES" ∧ m.review_reason = "No image"
          ∧ m.attachment_filename = "")
    ∧ ∀ title : String, check_match_quality title "" = (0, true, "No image") := by
  constructor
  · intro rows
    induction rows using merge_attachments_corrected.induct with
    | case1 => intro m hm; simp [merge_attachments_corrected] at hm
    | case2 row hc next rest2 ha ih =>
      have ha' : next.post_type = "attachment" := by simpa using ha
      rw [merge_corrected_pair row next rest2 hc ha']
      intro m hm hu
      rcases List.mem_cons.mp hm with hm | hm
      · subst hm
        have hu' : next.attachment_url = "" := hu
        simp [pairRecord, hu', get_filename, check_match_quality]
      · exact ih m hm hu
    | case3 row hc next rest2 ha ih =>
      have ha' : next.post_type ≠ "attachment" := by simpa using ha
      rw [merge_corrected_nopair row next rest2 hc ha']
      intro m hm hu
      rcases List.mem_cons.mp hm with hm | hm
      · subst hm; exact ⟨rfl, rfl, rfl⟩
      · exact ih m hm hu
    | case4 row hc =>
      rw [merge_corrected_single row hc]
      intro m hm hu
      rcases List.mem_cons.mp hm with hm | hm
      · subst hm; exact ⟨rfl, rfl, rfl⟩
      · simp at hm
    | case5 row rest hc ih =>
      have hc' : isContentType row.post_type = false := by simpa using hc
      rw [merge_corrected_skip row rest hc']
      exact ih
  · intro title
    simp [check_match_quality]

/-- Witness for C7: an unpaired content record and a content record paired
with an empty-url attachment. -/
theorem no_image_outcome_witness :
    ((unpairedRecord postB).needs_review = "YES"
      ∧ (unpairedRecord postB).review_reason = "No image"
      ∧ (unpairedRecord postB).attachment_filename = "")
    ∧ ((pairRecord postA attEmpty).needs_review = "YES"
      ∧ (pairRecord postA attEmpty).review_reason = "No image"
      ∧ (pairRecord postA attEmpty).attachment_filename = "") :=
  ⟨no_image_outcome.1 [postB] (unpairedRecord postB) (by decide) rfl,
   no_image_outcome.1 [postA, attEmpty] (pairRecord postA attEmpty)
     (by decide) rfl⟩

/-- C10: Scorer flag-score coupling — every scorer outcome has a score in
`{0, 1, 2, 5, 8, 10}`, and needs-review is false exactly when the score
is 8 or 10. -/
theorem scorer_flag_score_coupling (title filename : String) :
    (check_match_quality title filename).1 ∈ ([0, 1, 2, 5, 8, 10] : List Nat)
    ∧ ((check_match_quality title filename).2.1 = false ↔
        (check_match_quality title filename).1 = 8
          ∨ (check_match_quality title filename).1 = 10) := by
  unfold check_match_quality
  split
  · simp
  · split
    · simp
    · dsimp only
      split
      · simp
      · split
        · split
          · simp
          · split <;> simp
        · simp

/-- C3: the scorer evaluated at the spec's partial-match example — the
code returns score 2 with reason `No match - likely stock photo`, not the
claimed score 8 with `Partial match`, because `check_match_quality`
tokenizes the already-simplified (separator-free) strings, so the
token-pair count in its partial-match branch is always zero. -/
theorem scorer_spec_example_eval :
    check_match_quality "Kayak Trip Tips" "kayaking-adventure-2019"
      = (2, true, "No match - likely stock photo") := by decide

/-- C5 counterexample: with no explicit link and post-name `hello`, the
plain converter derives `/blogfeed/hello`, not the slash-prefixed
post-name `/hello` the claim requires. -/
theorem link_fallback_counterexample :
    itemNoLink.link = none ∧ itemNoLink.post_name = some "hello"
    ∧ (extractConverter id itemNoLink).link = "/blogfeed/hello"
    ∧ ("/blogfeed/hello" : String) ≠ "/" ++ "hello" := by decide

/-- C5 amended: for an item with no explicit link but a post-name, the
formatted-pipeline extractor returns the stripped post-name unchanged when
slash-prefixed and `/`-prefixed otherwise; the plain converter does the
same only when the post-name starts with `/`, `blogfeed/` or `2017/`, and
otherwise prefixes `/blogfeed/`. -/
theorem link_fallback_amended (san : String → String) (it : Item)
    (pn : String) (hl : it.link = none) (hp : it.post_name = some pn) :
    (startsWithStr (pyStrip pn) "/" = true →
      (extractFormatted san it).link = pyStrip pn
      ∧ (extractConverter san it).link = pyStrip pn)
    ∧ (startsWithStr (pyStrip pn) "/" = false →
      (extractFormatted san it).link = "/" ++ pyStrip pn
      ∧ ((startsWithStr (pyStrip pn) "blogfeed/"
            || startsWithStr (pyStrip pn) "2017/") = true →
          (extractConverter san it).link = "/" ++ pyStrip pn)
      ∧ ((startsWithStr (pyStrip pn) "blogfeed/"
            || startsWithStr (pyStrip pn) "2017/") = false →
          (extractConverter san it).link = "/blogfeed/" ++ pyStrip pn)) := by
  refine ⟨fun hs => ?_, fun hs => ⟨?_, fun hb => ?_, fun hb => ?_⟩⟩
  · simp [extractFormatted, extractConverter, linkFormatted, linkConverter,
      hl, hp, hs]
  · simp [extractFormatted, linkFormatted, hl, hp, hs]
  · simp [extractConverter, linkConverter, hl, hp, hs, hb]
  · rcases Bool.or_eq_false_iff.mp hb with ⟨hb1, hb2⟩
    simp [extractConverter, linkConverter, hl, hp, hs, hb1, hb2]

/-- Witness for C5 amended at post-names `blogfeed/x` and `/y`. -/
theorem link_fallback_amended_witness :
    ((extractFormatted id ⟨none, none, some "blogfeed/x", none, none, none,
        none, none, none, none, none⟩).link = "/" ++ pyStrip "blogfeed/x"
      ∧ (extractConverter id ⟨none, none, some "blogfeed/x", none, none,
          none, none, none, none, none, none⟩).link = "/" ++ pyStrip "blogfeed/x")
    ∧ ((extractFormatted id ⟨none, none, some "/y", none, none, none, none,
        none, none, none, none⟩).link = pyStrip "/y"
      ∧ (extractConverter id ⟨none, none, some "/y", none, none, none, none,
          none, none, none, none⟩).link = pyStrip "/y") := by
  constructor
  · exact ⟨((link_fallback_amended id _ "blogfeed/x" rfl rfl).2
        (by decide)).1,
      ((link_fallback_amended id _ "blogfeed/x" rfl rfl).2
        (by decide)).2.1 (by decide)⟩
  · exact (link_fallback_amended id _ "/y" rfl rfl).1 (by decide)

/-- C6: Extractor drop rule — for every export item, each extractor emits
exactly one record iff at least one of the extracted id, title and link is
non-empty, and emits nothing iff all three are empty; an item where every
pattern failed still extracts (all fields empty strings, no error). -/
theorem extractor_drop_rule (san : String → String) (it : Item) :
    (parseConverter san [it] = [extractConverter san it]
      ↔ ((extractConverter san it).post_id ≠ ""
          ∨ (extractConverter san it).title ≠ ""
          ∨ (extractConverter san it).link ≠ ""))
    ∧ (parseConverter san [it] = []
      ↔ ((extractConverter san it).post_id = ""
          ∧ (extractConverter san it).title = ""
          ∧ (extractConverter san it).link = ""))
    ∧ (parseFormatted san [it] = [extractFormatted san it]
      ↔ ((extractFormatted san it).post_id ≠ ""
          ∨ (extractFormatted san it).title ≠ ""
          ∨ (extractFormatted san it).link ≠ ""))
    ∧ (parseFormatted san [it] = []
      ↔ ((extractFormatted san it).post_id = ""
          ∧ (extractFormatted san it).title = ""
          ∧ (extractFormatted san it).link = ""))
    ∧ extractConverter san itemAllNone = ⟨"", "", "", "", "", "", "", "", ""⟩
    ∧ extractFormatted san itemAllNone = ⟨"", "", "", "", "", "", "", "", ""⟩ := by
  have hMain : ∀ r : Row,
      (List.filter keepRow [r] = [r]
        ↔ (r.post_id ≠ "" ∨ r.title ≠ "" ∨ r.link ≠ ""))
      ∧ (List.filter keepRow [r] = []
        ↔ (r.post_id = "" ∧ r.title = "" ∧ r.link = "")) := by
    intro r
    by_cases hk : keepRow r = true
    · have hd : r.post_id ≠ "" ∨ r.title ≠ "" ∨ r.link ≠ "" := by
        have h := hk; simp [keepRow] at h; tauto
      have hf : List.filter keepRow [r] = [r] := by simp [List.filter, hk]
      refine ⟨⟨fun _ => hd, fun _ => hf⟩, ⟨fun h => ?_, fun h => ?_⟩⟩
      · rw [hf] at h; cases h
      · rcases hd with h1 | h1 | h1
        · exact absurd h.1 h1
        · exact absurd h.2.1 h1
        · exact absurd h.2.2 h1
    · have hk' : keepRow r = false := by simpa using hk
      have hd : r.post_id = "" ∧ r.title = "" ∧ r.link = "" := by
        have h := hk'; simp [keepRow] at h; tauto
      have hf : List.filter keepRow [r] = [] := by simp [List.filter, hk']
      refine ⟨⟨fun h => ?_, fun h => ?_⟩, ⟨fun _ => hd, fun _ => hf⟩⟩
      · rw [hf] at h; cases h
      · rcases h with h1 | h1 | h1
        · exact absurd hd.1 h1
        · exact absurd hd.2.1 h1
        · exact absurd hd.2.2 h1
  refine ⟨?_, ?_, ?_, ?_, rfl, rfl⟩
  · simpa [parseConverter] using (hMain (extractConverter san it)).1
  · simpa [parseConverter] using (hMain (extractConverter san it)).2
  · simpa [parseFormatted] using (hMain (extractFormatted san it)).1
  · simpa [parseFormatted] using (hMain (extractFormatted san it)).2

/-! ### Shape lemmas for `urljoin` (used for the resolver claims) -/

/-- A slash-headed URL never parses a scheme. -/
theorem schemeSplit_slash (l : List Char) :
    schemeSplit ('/' :: l) = ([], '/' :: l) := by
  unfold schemeSplit
  have h1 : splitOnce ':' ('/' :: l)
      = ('/' :: (splitOnce ':' l).1, (splitOnce ':' l).2) := by
    simp [splitOnce]
  rw [h1]
  rcases h : (splitOnce ':' l).2 with _ | after
  · rfl
  · simp [isAsciiAlpha]

/-- Parsing a slash-headed URL keeps the caller's default scheme. -/
theorem urlparseFull_scheme_slash (ds : List Char) (cs : List Char) :
    (urlparseFull ds ('/' :: cs)).scheme = ds := by
  have hf : ('/' :: cs).filter (fun c => !(c == '\t' || c == '\r' || c == '\n'))
      = '/' :: cs.filter (fun c => !(c == '\t' || c == '\r' || c == '\n')) := by
    simp
  unfold urlparseFull
  dsimp only
  rw [hf, schemeSplit_slash]
  simp

/-- `urlunsplit` output begins with `scheme:` when a scheme is present. -/
theorem urlunsplit_head (scheme netloc url query fragment : List Char)
    (h : scheme ≠ []) :
    ∃ t, urlunsplit scheme netloc url query fragment = scheme ++ ':' :: t := by
  unfold urlunsplit
  dsimp only
  rw [if_pos h]
  have key : ∀ (x suf : List Char) (p : Prop) (inst : Decidable p),
      (∃ t, x = scheme ++ ':' :: t) →
      ∃ t, (if p then x ++ suf else x) = scheme ++ ':' :: t := by
    intro x suf p inst hx
    rcases hx with ⟨t, ht⟩
    by_cases hp : p
    · exact ⟨t ++ suf, by rw [if_pos hp, ht]; simp⟩
    · exact ⟨t, by rw [if_neg hp, ht]⟩
  apply key
  apply key
  exact ⟨_, rfl⟩

/-- `urlunparse` output begins with `scheme:` when a scheme is present. -/
theorem urlunparse_head (r : ParseResult) (h : r.scheme ≠ []) :
    ∃ t, urlunparse r = r.scheme ++ ':' :: t := by
  unfold urlunparse
  dsimp only
  exact urlunsplit_head _ _ _ _ _ h

/-- Joining a root-relative URL against an `https` base yields a string
beginning with `h` — in particular, an absolute one. -/
theorem urljoin_slash_head (base rel : String)
    (hb : (urlparseFull [] base.toList).scheme = "https".toList)
    (cs : List Char) (hr : rel.toList = '/' :: cs) :
    ∃ t, (urljoin base rel).toList = 'h' :: t := by
  have hbne : ¬ base = "" := by
    intro h
    rw [h] at hb
    exact absurd hb (by decide)
  have hrne : ¬ rel = "" := by
    intro h
    rw [h] at hr
    cases hr
  have hu : (urlparseFull (urlparseFull [] base.toList).scheme
      rel.toList).scheme = "https".toList := by
    rw [hr, urlparseFull_scheme_slash, hb]
  have hcond : ¬((urlparseFull (urlparseFull [] base.toList).scheme
        rel.toList).scheme ≠ (urlparseFull [] base.toList).scheme
      ∨ (urlparseFull (urlparseFull [] base.toList).scheme
        rel.toList).scheme ∉ usesRelative) := by
    rw [hu, hb]
    intro hor
    rcases hor with h1 | h1
    · exact h1 rfl
    · exact h1 (by decide)
  unfold urljoin
  rw [if_neg hbne, if_neg hrne]
  dsimp only
  rw [if_neg hcond]
  have hhead : ∀ (r : ParseResult), r.scheme = "https".toList →
      ∃ t, (String.mk (urlunparse r)).toList = 'h' :: t := by
    intro r hrs
    rcases urlunparse_head r (by rw [hrs]; decide) with ⟨t, ht⟩
    refine ⟨"ttps".toList ++ ':' :: t, ?_⟩
    show urlunparse r = _
    rw [ht, hrs]
    rfl
  split
  · exact hhead _ hu
  · split
    · exact hhead _ (by simpa using hu)
    · exact hhead _ (by simpa using hu)

/-- Prepending `https:` yields a string that is not root-relative. -/
theorem startsWith_https_prepend (raw : String) :
    startsWithStr ("https:" ++ raw) "/" = false := by
  unfold startsWithStr
  have h : ("https:" ++ raw).toList = 'h' :: ("ttps:".toList ++ raw.toList) := by
    cases raw with
    | mk l => rfl
  rw [h]
  rfl

/-- Soundness of the resolver's selector scan, for an arbitrary selector
list: a URL it returns passed the `logo`/`icon` filter and is not
root-relative (given an `https` page URL). -/
theorem scan_selectors_sound (page : Page) (pageUrl : String) (s : String)
    (hscheme : (urlparseFull [] pageUrl.toList).scheme = "https".toList) :
    ∀ sels : List String, scanSelectors page pageUrl sels = some s →
      inStr "logo" (pyLower s) = false ∧ inStr "icon" (pyLower s) = false
        ∧ startsWithStr s "/" = false := by
  intro sels
  induction sels with
  | nil => intro h; cases h
  | cons sel rest ih =>
    intro h
    rw [scanSelectors] at h
    cases hso : page.selectOne sel with
    | none => rw [hso] at h; exact ih h
    | some img =>
      rw [hso] at h
      dsimp only at h
      cases hiu : imgUrlOf img with
      | none => rw [hiu] at h; exact ih h
      | some raw =>
        rw [hiu] at h
        dsimp only at h
        by_cases hg : (!inStr "logo" (pyLower (normalizeImgUrl pageUrl raw))
            && !inStr "icon" (pyLower (normalizeImgUrl pageUrl raw))) = true
        · rw [if_pos hg] at h
          have hs : normalizeImgUrl pageUrl raw = s := Option.some.inj h
          have hg' : inStr "logo" (pyLower (normalizeImgUrl pageUrl raw))
                = false
              ∧ inStr "icon" (pyLower (normalizeImgUrl pageUrl raw))
                = false := by
            simpa using hg
          have hl : inStr "logo" (pyLower s) = false := by
            rw [← hs]; exact hg'.1
          have hi : inStr "icon" (pyLower s) = false := by
            rw [← hs]; exact hg'.2
          refine ⟨hl, hi, ?_⟩
          rw [← hs]
          unfold normalizeImgUrl
          by_cases h2 : startsWithStr raw "//" = true
          · rw [if_pos h2]
            exact startsWith_https_prepend raw
          · rw [if_neg h2]
            by_cases h1 : startsWithStr raw "/" = true
            · rw [if_pos h1]
              have hpre : ("/".toList).isPrefixOf raw.toList = true := h1
              have hex : ∃ cs, raw.toList = '/' :: cs := by
                rcases List.isPrefixOf_iff_prefix.mp hpre with ⟨t, ht⟩
                exact ⟨t, by simpa using ht.symm⟩
              rcases hex with ⟨cs, hcs⟩
              rcases urljoin_slash_head pageUrl raw hscheme cs hcs with ⟨t, ht⟩
              unfold startsWithStr
              rw [ht]
              rfl
            · rw [if_neg h1]
              simpa using h1
        · rw [if_neg hg] at h
          exact ih h

/-- C9 counterexample: a page with no selector hits whose `og:image`
content is a logo URL — `get_header_image` returns it through the
meta-tag fallback even though it contains `logo`, contradicting the claim
that returned URLs never contain `logo`. -/
theorem resolver_filter_counterexample :
    get_header_image pageLogo "https://www.thepointva.com/blog/x"
      = some "https://ex.com/logo.png"
    ∧ inStr "logo" (pyLower "https://ex.com/logo.png") = true := by decide

/-- C9 amended: a URL returned by the ordered CSS-selector strategies of
`scrape_images_v2.get_header_image` never contains `logo` or `icon`
(lowercased check), and — for a page URL with an `https` scheme — is
never root-relative (protocol-relative candidates get `https:` prepended
and root-relative ones are joined against the page URL); the `og:image`
and `twitter:image` meta-tag fallbacks return their content verbatim,
without this filtering or normalization. -/
theorem resolver_selector_phase (page : Page) (pageUrl : String) (s : String)
    (hscheme : (urlparseFull [] pageUrl.toList).scheme = "https".toList)
    (hfound : scanSelectors page pageUrl selectors = some s) :
    inStr "logo" (pyLower s) = false ∧ inStr "icon" (pyLower s) = false
      ∧ startsWithStr s "/" = false :=
  scan_selectors_sound page pageUrl s hscheme selectors hfound

/-- Witness for C9 amended: a page whose first selector yields a header
image on an `https` page URL. -/
theorem resolver_selector_phase_witness :
    inStr "logo" (pyLower "https://cdn.ex.com/header-a.jpg") = false
    ∧ inStr "icon" (pyLower "https://cdn.ex.com/header-a.jpg") = false
    ∧ startsWithStr "https://cdn.ex.com/header-a.jpg" "/" = false :=
  resolver_selector_phase pageHeader "https://www.thepointva.com/blog/x"
    "https://cdn.ex.com/header-a.jpg" (by decide) (by decide)

end SqExport
